import Mathlib

/-!
# Registration form controller, validation, face capture and submission

A shallow embedding of `static/js/auth.js`, `static/js/face-recognition.js` and the
email pattern of `static/js/main.js`.

* JavaScript strings are Lean `String`s (sequences of Unicode scalar values); `.length`
  is the number of UTF-16 code units, `jsLength`.
* The page is a record `Doc` holding the module-level variables of the two scripts
  together with the DOM elements the scripts look up.
* A lookup that yields `null` and is dereferenced without a guard raises a `TypeError`;
  a handler that raises keeps the mutations done so far, so every operation returns the
  state it reached together with a `Completion`.
* Calls, timers and requests are appended to `Doc.trace`, oldest first.
-/

namespace Portal

/-! ## JavaScript string primitives -/

/-- ECMAScript `WhiteSpace` and `LineTerminator` code points: the set removed by
`String.prototype.trim` and matched by the pattern class `\s`. -/
def isJsSpace (c : Char) : Bool :=
  let n := c.toNat
  n == 0x09 || n == 0x0A || n == 0x0B || n == 0x0C || n == 0x0D || n == 0x20 ||
  n == 0xA0 || n == 0x1680 || (0x2000 ≤ n && n ≤ 0x200A) || n == 0x2028 || n == 0x2029 ||
  n == 0x202F || n == 0x205F || n == 0x3000 || n == 0xFEFF

/-- The method `String.prototype.trim` on the list of code points. -/
def jsTrim (s : List Char) : List Char :=
  ((s.dropWhile isJsSpace).reverse.dropWhile isJsSpace).reverse

/-- The test `!value.trim()`: the trimmed value is the empty string. -/
def trimmedEmpty (v : String) : Bool :=
  (jsTrim v.toList).isEmpty

/-- Number of UTF-16 code units of one code point. -/
def utf16Units (c : Char) : Nat :=
  if c.toNat < 0x10000 then 1 else 2

/-- The `.length` of a JavaScript string: its number of UTF-16 code units. -/
def jsLength (v : String) : Nat :=
  (v.toList.map utf16Units).sum

/-- Truthiness of a JavaScript string: every string but the empty one. -/
def truthy (v : String) : Bool :=
  !v.toList.isEmpty

/-! ## Anchored patterns made of quantified character classes -/

/-- Quantifier of one pattern item: exactly one character, or `+`. -/
inductive Quant where
  | one
  | plus
  deriving DecidableEq, Repr

/-- One item of a pattern: a character class and its quantifier. -/
structure Atom where
  cls : Char → Bool
  q : Quant

/-- Backtracking matcher of `^item item ... item$` against a whole string. -/
def matchAtoms : List Atom → List Char → Bool
  | [], s => s.isEmpty
  | _ :: _, [] => false
  | ⟨p, .one⟩ :: rest, c :: s => p c && matchAtoms rest s
  | ⟨p, .plus⟩ :: rest, c :: s =>
      p c && (matchAtoms (⟨p, .plus⟩ :: rest) s || matchAtoms rest s)

/-- The class `[^\s@]`. -/
def notSpaceAt (c : Char) : Bool :=
  !isJsSpace c && c != '@'

/-- The pattern `/^[^\s@]+@[^\s@]+\.[^\s@]+$/` of `validateCurrentStep` and
`isValidEmail`. -/
def emailPattern : List Atom :=
  [⟨notSpaceAt, .plus⟩, ⟨fun c => c == '@', .one⟩, ⟨notSpaceAt, .plus⟩,
   ⟨fun c => c == '.', .one⟩, ⟨notSpaceAt, .plus⟩]

/-- The function `isValidEmail` of `main.js`: `pattern.test(email)`. -/
def isValidEmail (email : String) : Bool :=
  matchAtoms emailPattern email.toList

/-! ## The page -/

/-- Normal or abrupt completion of a call, with the returned value. -/
inductive Outcome (α : Type) where
  | returned (a : α)
  | threw
  deriving DecidableEq, Repr

/-- The call `classList.remove(tokens...)` on a list of class names. -/
def classRemove (cl : List String) (tokens : List String) : List String :=
  cl.filter (fun t => !tokens.contains t)

/-- The call `classList.add(token)` on a list of class names. -/
def classAdd (cl : List String) (token : String) : List String :=
  if cl.contains token then cl else cl ++ [token]

/-- The properties of a DOM element that the scripts read or write. -/
structure Element where
  classList : List String
  display : String
  textContent : String
  color : String
  src : String
  deriving DecidableEq, Repr

/-- The call `element.classList.add(token)`. -/
def Element.addClass (e : Element) (token : String) : Element :=
  { e with classList := classAdd e.classList token }

/-- The call `element.classList.remove(token)`. -/
def Element.removeClass (e : Element) (token : String) : Element :=
  { e with classList := classRemove e.classList [token] }

/-- Which of the selectors `input[type="email"]`, `input[type="password"]` a form
control matches. -/
inductive FieldKind where
  | email
  | password
  | other
  deriving DecidableEq, Repr

/-- A form control inside a step panel. -/
structure Field where
  kind : FieldKind
  required : Bool
  value : String
  borderColor : String
  onceInputListeners : Nat
  deriving DecidableEq, Repr

/-- An element of class `form-step`, with its `data-step` attribute, its
`style.display` and its form controls in document order. -/
structure Panel where
  dataStep : String
  display : String
  fields : List Field
  deriving DecidableEq, Repr

/-- An element of class `step`; `stepNum` is `parseInt(step.dataset.step)`, with `none`
for `NaN`. -/
structure Indicator where
  stepNum : Option Int
  classList : List String
  deriving DecidableEq, Repr

/-- A camera stream with its number of tracks. -/
structure MediaStream where
  tracks : Nat
  deriving DecidableEq, Repr

/-- The `video#webcam` element. -/
structure Video where
  videoWidth : Nat
  videoHeight : Nat
  srcObject : Option MediaStream
  playing : Bool
  deriving DecidableEq, Repr

/-- The `canvas#face-canvas` element. -/
structure Canvas where
  width : Nat
  height : Nat
  deriving DecidableEq, Repr

/-- The object posted to `/register`; a form entry that is missing is `null`. -/
structure Payload where
  name : Option String
  email : Option String
  phone : Option String
  password : Option String
  role : Option String
  company_name : Option String
  headline : Option String
  bio : Option String
  skills : Option String
  face_encoding : Option String
  deriving DecidableEq, Repr

/-- The callback handed to `setTimeout`. -/
inductive TimerAction where
  | hideFormError
  | navigate (href : Option String)
  | toastSlideOut
  deriving DecidableEq, Repr

/-- An observable effect of the scripts. -/
inductive Effect where
  | startWebcam (videoElementId : String)
  | stopWebcam
  | getUserMedia
  | trackStop
  | panelDisplay (dataStep : String) (value : String)
  | fetch (url : String) (method : String) (body : Payload)
  | showToast (message : String) (type : String)
  | setTimeout (action : TimerAction) (ms : Nat)
  | consoleLog (text : String)
  | consoleError (text : String)
  deriving DecidableEq, Repr

/-- The page: module variables of `auth.js` and `face-recognition.js`, the elements they
look up (`none` when the lookup yields `null`), and the effects so far. -/
structure Doc where
  currentStep : Nat
  panels : List Panel
  indicators : List Indicator
  formError : Option Element
  registerForm : Option (List (String × String))
  videoStream : Option MediaStream
  capturedFaceData : Option String
  windowCapturedFaceData : Option String
  webcam : Option Video
  faceCanvas : Option Canvas
  facePreview : Option Element
  capturedFace : Option Element
  webcamContainer : Option Element
  captureBtn : Option Element
  retakeBtn : Option Element
  faceStatus : Option Element
  faceLoginStatus : Option Element
  trace : List Effect
  deriving DecidableEq, Repr

/-- The constant `totalSteps`. -/
def totalSteps : Nat := 3

/-- Append an effect to the trace. -/
def emit (e : Effect) (d : Doc) : Doc :=
  { d with trace := d.trace ++ [e] }

/-! ## face-recognition.js -/

/-- The lookup `getElementById('face-status') || getElementById('face-login-status')`
followed by the guarded update of text and colour. -/
def setStatus (text color : String) (d : Doc) : Doc :=
  match d.faceStatus with
  | some e => { d with faceStatus := some { e with textContent := text, color := color } }
  | none =>
    match d.faceLoginStatus with
    | some e =>
      { d with faceLoginStatus := some { e with textContent := text, color := color } }
    | none => d

/-- The function `startWebcam` up to its `await`: returns at once when the video element is
missing, otherwise requests the camera. -/
def startWebcam (videoElementId : String) (d : Doc) : Doc :=
  let d := emit (.startWebcam videoElementId) d
  match (if videoElementId = "webcam" then d.webcam else none) with
  | none => d
  | some _ => emit .getUserMedia d

/-- The rest of `startWebcam` once the camera request settles: `some stream` when access
is granted, `none` when it is refused. Returns the value the promise resolves to. -/
def startWebcamResume (granted : Option MediaStream) (d : Doc) : Doc × Bool :=
  match granted with
  | some stream =>
    let d := { d with videoStream := some stream }
    let play := fun (v : Video) => { v with srcObject := some stream, playing := true }
    let d := { d with webcam := d.webcam.map play }
    (setStatus "Camera ready - Position your face" "#0A66C2" d, true)
  | none =>
    let d := emit (.consoleError "Webcam error:") d
    (setStatus "Camera access denied" "#CC1016" d, false)

/-- The function `stopWebcam`. -/
def stopWebcam (d : Doc) : Doc :=
  let d := emit .stopWebcam d
  match d.videoStream with
  | some stream =>
    { d with trace := d.trace ++ List.replicate stream.tracks Effect.trackStop,
             videoStream := none }
  | none => d

/-- The guarded block of `captureFace` that swaps the live view for the still image. The
two buttons are dereferenced without a guard. -/
def showPreview (frame : String) (d : Doc) : Doc × Outcome Unit :=
  match d.facePreview, d.capturedFace, d.webcamContainer with
  | some preview, some capturedImg, some container =>
    let d := { d with capturedFace := some { capturedImg with src := frame } }
    let d := { d with facePreview := some (preview.removeClass "hidden") }
    let d := { d with webcamContainer := some { container with display := "none" } }
    match d.captureBtn with
    | none => (d, .threw)
    | some capture =>
      let d := { d with captureBtn := some (capture.addClass "hidden") }
      match d.retakeBtn with
      | none => (d, .threw)
      | some retake =>
        let d := { d with retakeBtn := some (retake.removeClass "hidden") }
        match d.faceStatus with
        | some status =>
          let status := { status with textContent := "Face captured successfully!" }
          let status := { status with color := "#057642" }
          ({ d with faceStatus := some status }, .returned ())
        | none => (d, .returned ())
  | _, _, _ => (d, .returned ())

/-- The function `captureFace`; `frame` is what `canvas.toDataURL('image/jpeg', 0.8)`
yields. Returns `undefined` (`none`) when the video or the canvas is missing. -/
def captureFace (frame : String) (d : Doc) : Doc × Outcome (Option String) :=
  match d.webcam, d.faceCanvas with
  | some video, some canvas =>
    let canvas := { canvas with width := video.videoWidth, height := video.videoHeight }
    let d := { d with faceCanvas := some canvas }
    let d := { d with capturedFaceData := some frame }
    let d := { d with windowCapturedFaceData := d.capturedFaceData }
    match showPreview frame d with
    | (d, .threw) => (d, .threw)
    | (d, .returned _) =>
      let d := stopWebcam d
      let d := emit (.consoleLog
        ("Face captured and stored: " ++ if truthy frame then "yes" else "no")) d
      (d, .returned d.capturedFaceData)
  | _, _ => (d, .returned none)

/-- The guarded block of `retakeFace` that brings the live view back. -/
def showLive (d : Doc) : Doc × Outcome Unit :=
  match d.facePreview, d.webcamContainer with
  | some preview, some container =>
    let d := { d with facePreview := some (preview.addClass "hidden") }
    let d := { d with webcamContainer := some { container with display := "block" } }
    match d.captureBtn with
    | none => (d, .threw)
    | some capture =>
      let d := { d with captureBtn := some (capture.removeClass "hidden") }
      match d.retakeBtn with
      | none => (d, .threw)
      | some retake =>
        ({ d with retakeBtn := some (retake.addClass "hidden") }, .returned ())
  | _, _ => (d, .returned ())

/-- The function `retakeFace`. -/
def retakeFace (d : Doc) : Doc × Outcome Unit :=
  let d := { d with capturedFaceData := none }
  let d := { d with windowCapturedFaceData := none }
  match showLive d with
  | (d, .threw) => (d, .threw)
  | (d, .returned _) => (startWebcam "webcam" d, .returned ())

/-! ## auth.js -/

/-- The text `${currentStep}` spliced into the panel selector. -/
def stepKey (currentStep : Nat) : String :=
  toString currentStep

/-- The lookup `document.querySelector('.form-step[data-step="key"]')`: the first panel
whose attribute equals the key. -/
def findPanel (key : String) (panels : List Panel) : Option Panel :=
  panels.find? (fun p => p.dataStep == key)

/-- Apply a mutation to the first panel whose attribute equals the key. -/
def updatePanel (key : String) (g : Panel → Panel) : List Panel → List Panel
  | [] => []
  | p :: ps => if p.dataStep == key then g p :: ps else p :: updatePanel key g ps

/-- The statement `document.querySelector(panel).style.display = value`; `none` when the
lookup yields `null` and the assignment raises. -/
def setPanelDisplay (key value : String) (d : Doc) : Option Doc :=
  match findPanel key d.panels with
  | none => none
  | some _ =>
    some (emit (.panelDisplay key value)
      { d with panels := updatePanel key (fun p => { p with display := value }) d.panels })

/-- The body of the `forEach` of `updateProgressSteps` for one indicator. -/
def updateIndicator (currentStep : Nat) (step : Indicator) : Indicator :=
  let cl := classRemove step.classList ["active", "completed"]
  match step.stepNum with
  | none => { step with classList := cl }
  | some stepNum =>
    if stepNum < (currentStep : Int) then { step with classList := classAdd cl "completed" }
    else if stepNum = (currentStep : Int) then { step with classList := classAdd cl "active" }
    else { step with classList := cl }

/-- The function `updateProgressSteps`. -/
def updateProgressSteps (d : Doc) : Doc :=
  { d with indicators := d.indicators.map (updateIndicator d.currentStep) }

/-- The function `showFormError`. -/
def showFormError (message : String) (d : Doc) : Doc :=
  match d.formError with
  | some errorDiv =>
    let errorDiv := { errorDiv with textContent := message }
    let d := { d with formError := some (errorDiv.removeClass "hidden") }
    emit (.setTimeout .hideFormError 5000) d
  | none => d

/-- The function `showToast` of `main.js`, as far as `auth.js` observes it. -/
def showToast (message type : String) (d : Doc) : Doc :=
  emit (.setTimeout .toastSlideOut 4000) (emit (.showToast message type) d)

/-- The test `!field.value.trim()` on a field marked `required`. -/
def missingRequired (field : Field) : Bool :=
  field.required && trimmedEmpty field.value

/-- The body of the `forEach` over the required fields: an empty one gets the error border
and a one-time `input` listener. -/
def markRequired (field : Field) : Field :=
  if missingRequired field then
    { field with borderColor := "var(--error)",
                 onceInputListeners := field.onceInputListeners + 1 }
  else field

/-- The lookup `step.querySelector('input[type="..."]')`: the first control of the kind. -/
def firstOfKind (kind : FieldKind) (fields : List Field) : Option Field :=
  fields.find? (fun f => f.kind == kind)

/-- The assignment `field.style.borderColor = 'var(--error)'` on the first control of the
kind. -/
def flagFirst (kind : FieldKind) : List Field → List Field
  | [] => []
  | f :: fs =>
    if f.kind == kind then { f with borderColor := "var(--error)" } :: fs
    else f :: flagFirst kind fs

/-- The condition of the email block:
`emailField && emailField.value && !pattern.test(emailField.value)`. -/
def emailInvalid (fields : List Field) : Bool :=
  match firstOfKind .email fields with
  | some emailField => truthy emailField.value && !isValidEmail emailField.value
  | none => false

/-- The condition of the password block:
`passwordField && passwordField.value && passwordField.value.length < 6`. -/
def passwordInvalid (fields : List Field) : Bool :=
  match firstOfKind .password fields with
  | some passwordField =>
    truthy passwordField.value && decide (jsLength passwordField.value < 6)
  | none => false

/-- The checks of `validateCurrentStep` on the controls of one panel: the controls after
the border updates, and the final `isValid`. -/
def validateFields (fields : List Field) : List Field × Bool :=
  let isValid := !fields.any missingRequired
  let fields := fields.map markRequired
  let (fields, isValid) :=
    if emailInvalid fields then (flagFirst .email fields, false) else (fields, isValid)
  let (fields, isValid) :=
    if passwordInvalid fields then (flagFirst .password fields, false) else (fields, isValid)
  (fields, isValid)

/-- The function `validateCurrentStep`. Raises when the panel of the current step is
missing. -/
def validateCurrentStep (d : Doc) : Doc × Outcome Bool :=
  match findPanel (stepKey d.currentStep) d.panels with
  | none => (d, .threw)
  | some step =>
    let (fields, isValid) := validateFields step.fields
    let write := fun (p : Panel) => { p with fields := fields }
    let d := { d with panels := updatePanel (stepKey d.currentStep) write d.panels }
    let d := if !isValid then
        showFormError "Please fill in all required fields correctly." d
      else d
    (d, .returned isValid)

/-- The function `nextStep`. -/
def nextStep (d : Doc) : Doc × Outcome Unit :=
  match validateCurrentStep d with
  | (d, .threw) => (d, .threw)
  | (d, .returned false) => (d, .returned ())
  | (d, .returned true) =>
    if d.currentStep < totalSteps then
      match setPanelDisplay (stepKey d.currentStep) "none" d with
      | none => (d, .threw)
      | some d =>
        let d := { d with currentStep := d.currentStep + 1 }
        match setPanelDisplay (stepKey d.currentStep) "block" d with
        | none => (d, .threw)
        | some d =>
          let d := updateProgressSteps d
          if d.currentStep = 3 then (startWebcam "webcam" d, .returned ())
          else (d, .returned ())
    else (d, .returned ())

/-- The function `prevStep`. -/
def prevStep (d : Doc) : Doc × Outcome Unit :=
  if d.currentStep > 1 then
    let d := if d.currentStep = 3 then stopWebcam d else d
    match setPanelDisplay (stepKey d.currentStep) "none" d with
    | none => (d, .threw)
    | some d =>
      let d := { d with currentStep := d.currentStep - 1 }
      match setPanelDisplay (stepKey d.currentStep) "block" d with
      | none => (d, .threw)
      | some d => (updateProgressSteps d, .returned ())
  else (d, .returned ())

/-- Modelled from the spec: the response contract of the `/register` endpoint, owned by the
server, `{success: bool, redirect?: string, message?: string}`. -/
structure SubmissionResult where
  success : Bool
  redirect : Option String
  message : Option String
  deriving DecidableEq, Repr

/-- How the awaited request of `submitRegistration` settles: the `fetch` promise rejects,
the body is not JSON, or the body decodes to a result. -/
inductive FetchOutcome where
  | rejected
  | notJson
  | json (result : SubmissionResult)
  deriving DecidableEq, Repr

/-- The call `formData.get(name)`: the value of the first entry of that name, or `null`. -/
def formGet (formData : List (String × String)) (name : String) : Option String :=
  (formData.find? (fun e => e.1 == name)).map (fun e => e.2)

/-- The expression `result.message || 'Registration failed. Please try again.'`. -/
def failureMessage (result : SubmissionResult) : String :=
  match result.message with
  | some m => if truthy m then m else "Registration failed. Please try again."
  | none => "Registration failed. Please try again."

/-- The function `submitRegistration`, run until its promise settles; the awaited request
settles as `reply`. `threw` is a rejected promise: `new FormData(form)` raises outside the
`try` when the form is missing. -/
def submitRegistration (faceData : Option String) (reply : FetchOutcome) (d : Doc) :
    Doc × Outcome Unit :=
  match d.registerForm with
  | none => (d, .threw)
  | some formData =>
    let data : Payload :=
      { name := formGet formData "name",
        email := formGet formData "email",
        phone := formGet formData "phone",
        password := formGet formData "password",
        role := formGet formData "role",
        company_name := formGet formData "company_name",
        headline := formGet formData "headline",
        bio := formGet formData "bio",
        skills := formGet formData "skills",
        face_encoding := faceData }
    let d := emit (.fetch "/register" "POST" data) d
    match reply with
    | .json result =>
      if result.success then
        let d := showToast "Registration successful! Redirecting..." "success" d
        (emit (.setTimeout (.navigate result.redirect) 1500) d, .returned ())
      else
        (showFormError (failureMessage result) d, .returned ())
    | _ =>
      let d := emit (.consoleError "Registration error:") d
      (showFormError "An error occurred. Please try again." d, .returned ())

/-- The function `skipFace`. The promise of `submitRegistration` is dropped, so the call
itself always returns. -/
def skipFace (reply : FetchOutcome) (d : Doc) : Doc × Outcome Unit :=
  ((submitRegistration none reply d).1, .returned ())

/-- A call on the step controller, or the user editing the panels in between. -/
inductive Action where
  | nextStep
  | prevStep
  | skipFace (reply : FetchOutcome)
  | edit (panels : List Panel)
  deriving DecidableEq, Repr

/-- One action; a handler that raises leaves the state it reached. -/
def step (d : Doc) : Action → Doc
  | .nextStep => (nextStep d).1
  | .prevStep => (prevStep d).1
  | .skipFace reply => (skipFace reply d).1
  | .edit panels => { d with panels := panels }

/-- A finite sequence of actions, first to last. -/
def run (d : Doc) (actions : List Action) : Doc :=
  actions.foldl step d

/-! ## Observations used in the statements -/

/-- The shape `local@domain.tld` with all three parts non-empty and free of white space and
of `@`. -/
def EmailShape (s : List Char) : Prop :=
  ∃ a b c : List Char, a ≠ [] ∧ b ≠ [] ∧ c ≠ [] ∧
    (∀ x ∈ a, notSpaceAt x = true) ∧ (∀ x ∈ b, notSpaceAt x = true) ∧
    (∀ x ∈ c, notSpaceAt x = true) ∧ s = a ++ '@' :: (b ++ '.' :: c)

/-- The value of the first control of a kind. -/
def valueOfFirst (kind : FieldKind) (fields : List Field) : Option String :=
  (firstOfKind kind fields).map Field.value

/-- An effect that is a call of `startWebcam`, whatever its argument. -/
def isStartWebcam : Effect → Bool
  | .startWebcam _ => true
  | _ => false

/-- An effect that is a toast, of any type. -/
def isToast : Effect → Bool
  | .showToast _ _ => true
  | _ => false

/-- An effect that schedules a navigation. -/
def isNavigation : Effect → Bool
  | .setTimeout (.navigate _) _ => true
  | _ => false

/-- An effect that is a request. -/
def isFetch : Effect → Bool
  | .fetch _ _ _ => true
  | _ => false

/-- An element carries the class `hidden`. -/
def Element.hidden (e : Element) : Bool :=
  e.classList.contains "hidden"

/-- The four visibility flags of the capture panel: preview hidden, webcam container
shown, capture button shown, retake button hidden; `none` when one of the four elements is
missing. -/
def visibility (d : Doc) : Option (Bool × Bool × Bool × Bool) :=
  match d.facePreview, d.webcamContainer, d.captureBtn, d.retakeBtn with
  | some preview, some container, some capture, some retake =>
    some (preview.hidden, container.display != "none", !capture.hidden, retake.hidden)
  | _, _, _, _ => none

/-- A counter of effects that ignores timers of the error banner, panel display writes
and camera requests. -/
def Quiet (q : Effect → Bool) : Prop :=
  q (.setTimeout .hideFormError 5000) = false ∧ (∀ k v, q (.panelDisplay k v) = false) ∧
    q .getUserMedia = false

/-- A panel is displayed when its inline `display` is not `'none'`. -/
def Panel.shown (p : Panel) : Bool :=
  p.display != "none"

/-- The `data-step` attribute of a panel together with whether it is displayed. -/
def Panel.cell (p : Panel) : String × Bool :=
  (p.dataStep, p.shown)

/-- The effect of a display write for `key` on one cell. -/
def setShown (key : String) (b : Bool) (e : String × Bool) : String × Bool :=
  if e.1 == key then (e.1, b) else e

/-- A navigation call, or the user typing into the controls of the panel of one key. -/
inductive NavAction where
  | nextStep
  | prevStep
  | fill (key : String) (fields : List Field)
  deriving DecidableEq, Repr

/-- One navigation action; a handler that raises leaves the state it reached. -/
def navStep (d : Doc) : NavAction → Doc
  | .nextStep => (nextStep d).1
  | .prevStep => (prevStep d).1
  | .fill key fields =>
    { d with panels := updatePanel key (fun p => { p with fields := fields }) d.panels }

/-- A finite sequence of navigation actions, first to last. -/
def navRun (d : Doc) (actions : List NavAction) : Doc :=
  actions.foldl navStep d

/-- The cells are laid out for step `cs`: `cs` is in `1..totalSteps`, each of the keys
`1`, `2`, `3` names exactly one cell, and a cell is displayed iff its key is that of
`cs`. -/
def StepLayout (cs : Nat) (cells : List (String × Bool)) : Prop :=
  1 ≤ cs ∧ cs ≤ totalSteps ∧
    (∀ k ∈ [1, 2, 3], cells.countP (fun e => e.1 == stepKey k) = 1) ∧
    ∀ e ∈ cells, e.2 = (e.1 == stepKey cs)

/-! ## Sample pages -/

/-- An element with no class, no inline style and no text. -/
def blank : Element :=
  { classList := [], display := "", textContent := "", color := "", src := "" }

/-- A text control. -/
def textField (kind : FieldKind) (required : Bool) (value : String) : Field :=
  { kind := kind, required := required, value := value, borderColor := "",
    onceInputListeners := 0 }

/-- The registration page as loaded, with the given controls on its three panels. -/
def page (f1 f2 f3 : List Field) : Doc :=
  { currentStep := 1,
    panels := [⟨"1", "block", f1⟩, ⟨"2", "none", f2⟩, ⟨"3", "none", f3⟩],
    indicators := [⟨some 1, ["step", "active"]⟩, ⟨some 2, ["step"]⟩, ⟨some 3, ["step"]⟩],
    formError := some { blank with classList := ["hidden"] },
    registerForm := some [],
    videoStream := none,
    capturedFaceData := none,
    windowCapturedFaceData := none,
    webcam := some ⟨640, 480, none, false⟩,
    faceCanvas := some ⟨300, 150⟩,
    facePreview := some { blank with classList := ["face-preview", "hidden"] },
    capturedFace := some blank,
    webcamContainer := some { blank with classList := ["webcam-container"] },
    captureBtn := some { blank with classList := ["btn"] },
    retakeBtn := some { blank with classList := ["btn", "hidden"] },
    faceStatus := some blank,
    faceLoginStatus := none,
    trace := [] }

/-! ## The email pattern -/

theorem matchAtoms_nil (s : List Char) : matchAtoms [] s = true ↔ s = [] := by
  cases s <;> simp [matchAtoms]

theorem matchAtoms_one (p : Char → Bool) (rest : List Atom) (s : List Char) :
    matchAtoms (⟨p, .one⟩ :: rest) s = true ↔
      ∃ c t, s = c :: t ∧ p c = true ∧ matchAtoms rest t = true := by
  cases s with
  | nil => simp [matchAtoms]
  | cons c t =>
    simp only [matchAtoms, Bool.and_eq_true, List.cons.injEq]
    constructor
    · rintro ⟨h1, h2⟩
      exact ⟨c, t, ⟨rfl, rfl⟩, h1, h2⟩
    · rintro ⟨c1, t1, ⟨rfl, rfl⟩, h1, h2⟩
      exact ⟨h1, h2⟩

theorem matchAtoms_plus (p : Char → Bool) (rest : List Atom) (s : List Char) :
    matchAtoms (⟨p, .plus⟩ :: rest) s = true ↔
      ∃ a t, a ≠ [] ∧ (∀ x ∈ a, p x = true) ∧ s = a ++ t ∧ matchAtoms rest t = true := by
  induction s with
  | nil =>
    simp only [matchAtoms, Bool.false_eq_true, false_iff]
    rintro ⟨a, t, ha, -, hs, -⟩
    cases a with
    | nil => exact ha rfl
    | cons x a => simp at hs
  | cons c s ih =>
    simp only [matchAtoms, Bool.and_eq_true, Bool.or_eq_true]
    constructor
    · rintro ⟨hc, h | h⟩
      · obtain ⟨a, t, -, hall, hs, ht⟩ := ih.mp h
        refine ⟨c :: a, t, by simp, ?_, by simp [hs], ht⟩
        intro x hx
        rcases List.mem_cons.mp hx with rfl | hx
        · exact hc
        · exact hall x hx
      · exact ⟨[c], s, by simp, by simpa using hc, by simp, h⟩
    · rintro ⟨a, t, ha, hall, hs, ht⟩
      cases a with
      | nil => exact absurd rfl ha
      | cons x a =>
        simp only [List.cons_append, List.cons.injEq] at hs
        obtain ⟨rfl, rfl⟩ := hs
        refine ⟨hall c (by simp), ?_⟩
        cases a with
        | nil => right; simpa using ht
        | cons y a =>
          left
          exact ih.mpr ⟨y :: a, t, by simp, fun z hz => hall z (List.mem_cons_of_mem _ hz),
            rfl, ht⟩

theorem isValidEmail_iff (v : String) : isValidEmail v = true ↔ EmailShape v.toList := by
  unfold isValidEmail emailPattern EmailShape
  rw [matchAtoms_plus]
  constructor
  · rintro ⟨a, t, ha, hA, hs, ht⟩
    obtain ⟨x, t1, rfl, hx, ht1⟩ := (matchAtoms_one _ _ _).mp ht
    obtain ⟨b, t2, hb, hB, rfl, ht2⟩ := (matchAtoms_plus _ _ _).mp ht1
    obtain ⟨y, t3, rfl, hy, ht3⟩ := (matchAtoms_one _ _ _).mp ht2
    obtain ⟨c, t4, hc, hC, rfl, ht4⟩ := (matchAtoms_plus _ _ _).mp ht3
    have h4 := (matchAtoms_nil _).mp ht4
    have hx : x = '@' := by simpa using hx
    have hy : y = '.' := by simpa using hy
    subst h4 hx hy
    exact ⟨a, b, c, ha, hb, hc, hA, hB, hC, by simpa using hs⟩
  · rintro ⟨a, b, c, ha, hb, hc, hA, hB, hC, hs⟩
    refine ⟨a, '@' :: (b ++ '.' :: c), ha, hA, hs, ?_⟩
    refine (matchAtoms_one _ _ _).mpr ⟨'@', b ++ '.' :: c, rfl, by simp, ?_⟩
    refine (matchAtoms_plus _ _ _).mpr ⟨b, '.' :: c, hb, hB, rfl, ?_⟩
    refine (matchAtoms_one _ _ _).mpr ⟨'.', c, rfl, by simp, ?_⟩
    exact (matchAtoms_plus _ _ _).mpr ⟨c, [], hc, hC, by simp, by simp [matchAtoms]⟩

theorem notSpaceAt_ne_at {x : Char} (h : notSpaceAt x = true) : x ≠ '@' := by
  unfold notSpaceAt at h
  simp only [Bool.and_eq_true, bne_iff_ne, ne_eq] at h
  exact h.2

/-- A string of the email shape has exactly one `@`, and a dot after it. -/
theorem EmailShape.dot_after_at {s : List Char} (h : EmailShape s) :
    '@' ∈ s ∧ ∀ a b, s = a ++ '@' :: b → '.' ∈ b := by
  obtain ⟨a0, b0, c0, -, -, -, hA, hB, hC, rfl⟩ := h
  refine ⟨by simp, ?_⟩
  intro a b hs
  have hA0 : '@' ∉ a0 := fun hm => notSpaceAt_ne_at (hA _ hm) rfl
  have hR0 : '@' ∉ b0 ++ '.' :: c0 := by
    intro hm
    rcases List.mem_append.mp hm with hm | hm
    · exact notSpaceAt_ne_at (hB _ hm) rfl
    · rcases List.mem_cons.mp hm with hm | hm
      · exact absurd hm (by decide)
      · exact notSpaceAt_ne_at (hC _ hm) rfl
  rcases List.append_eq_append_iff.mp hs with ⟨a', rfl, h2⟩ | ⟨c', rfl, h2⟩
  · cases a' with
    | nil =>
      simp only [List.nil_append, List.cons.injEq, true_and] at h2
      subst h2
      simp
    | cons x a' =>
      simp only [List.cons_append, List.cons.injEq] at h2
      exact absurd (by rw [h2.2]; simp) hR0
  · cases c' with
    | nil =>
      simp only [List.nil_append, List.cons.injEq, true_and] at h2
      subst h2
      simp
    | cons x c' =>
      simp only [List.cons_append, List.cons.injEq] at h2
      exact absurd (by rw [← h2.1]; simp) hA0

/-! ## Validation -/

theorem markRequired_value (f : Field) : (markRequired f).value = f.value := by
  unfold markRequired
  split <;> rfl

theorem markRequired_kind (f : Field) : (markRequired f).kind = f.kind := by
  unfold markRequired
  split <;> rfl

theorem valueOfFirst_markRequired (k : FieldKind) (fs : List Field) :
    valueOfFirst k (fs.map markRequired) = valueOfFirst k fs := by
  unfold valueOfFirst firstOfKind
  induction fs with
  | nil => rfl
  | cons f fs ih =>
    simp only [List.map_cons, List.find?_cons, markRequired_kind]
    cases f.kind == k
    · simpa using ih
    · simp [markRequired_value]

theorem valueOfFirst_flagFirst (k k' : FieldKind) (fs : List Field) :
    valueOfFirst k (flagFirst k' fs) = valueOfFirst k fs := by
  unfold valueOfFirst firstOfKind
  induction fs with
  | nil => rfl
  | cons f fs ih =>
    simp only [flagFirst]
    by_cases h : (f.kind == k') = true
    · rw [if_pos h]
      simp only [List.find?_cons]
      cases f.kind == k <;> simp
    · rw [if_neg h]
      simp only [List.find?_cons]
      cases f.kind == k
      · simpa using ih
      · simp

theorem emailInvalid_eq (fs : List Field) :
    emailInvalid fs = match valueOfFirst .email fs with
      | some v => truthy v && !isValidEmail v
      | none => false := by
  unfold emailInvalid valueOfFirst
  cases firstOfKind .email fs <;> rfl

theorem passwordInvalid_eq (fs : List Field) :
    passwordInvalid fs = match valueOfFirst .password fs with
      | some v => truthy v && decide (jsLength v < 6)
      | none => false := by
  unfold passwordInvalid valueOfFirst
  cases firstOfKind .password fs <;> rfl

theorem emailInvalid_markRequired (fs : List Field) :
    emailInvalid (fs.map markRequired) = emailInvalid fs := by
  rw [emailInvalid_eq, emailInvalid_eq, valueOfFirst_markRequired]

theorem passwordInvalid_markRequired (fs : List Field) :
    passwordInvalid (fs.map markRequired) = passwordInvalid fs := by
  rw [passwordInvalid_eq, passwordInvalid_eq, valueOfFirst_markRequired]

theorem passwordInvalid_flagFirst (k : FieldKind) (fs : List Field) :
    passwordInvalid (flagFirst k fs) = passwordInvalid fs := by
  rw [passwordInvalid_eq, passwordInvalid_eq, valueOfFirst_flagFirst]

/-- The verdict of the three checks on the controls of a panel. -/
theorem validateFields_snd (fs : List Field) :
    (validateFields fs).2 =
      (!fs.any missingRequired && !emailInvalid fs && !passwordInvalid fs) := by
  unfold validateFields
  by_cases he : emailInvalid fs = true <;> by_cases hp : passwordInvalid fs = true <;>
    simp [emailInvalid_markRequired, passwordInvalid_markRequired, passwordInvalid_flagFirst,
      he, hp]

theorem showFormError_currentStep (m : String) (d : Doc) :
    (showFormError m d).currentStep = d.currentStep := by
  unfold showFormError
  split <;> rfl

theorem showFormError_panels (m : String) (d : Doc) :
    (showFormError m d).panels = d.panels := by
  unfold showFormError
  split <;> rfl

theorem validateCurrentStep_currentStep (d : Doc) :
    (validateCurrentStep d).1.currentStep = d.currentStep := by
  unfold validateCurrentStep
  split
  · rfl
  · simp only
    split <;> simp [showFormError_currentStep]

theorem updatePanel_display (key : String) (g : Panel → Panel)
    (hg : ∀ p, (g p).display = p.display) (ps : List Panel) :
    (updatePanel key g ps).map Panel.display = ps.map Panel.display := by
  induction ps with
  | nil => rfl
  | cons p ps ih =>
    simp only [updatePanel]
    split
    · simp [hg]
    · simp [ih]

theorem validateCurrentStep_display (d : Doc) :
    (validateCurrentStep d).1.panels.map Panel.display = d.panels.map Panel.display := by
  unfold validateCurrentStep
  split
  · rfl
  · simp only
    split <;> simp [showFormError_panels, updatePanel_display]

theorem validateCurrentStep_result (d : Doc) (step : Panel)
    (h : findPanel (stepKey d.currentStep) d.panels = some step) :
    (validateCurrentStep d).2 = .returned (!step.fields.any missingRequired &&
      !emailInvalid step.fields && !passwordInvalid step.fields) := by
  unfold validateCurrentStep
  rw [h]
  simp [validateFields_snd]

theorem truthy_iff (v : String) : truthy v = true ↔ v ≠ "" := by
  obtain ⟨l⟩ := v
  cases l with
  | nil => simp [truthy, String.toList]
  | cons c l =>
    simp only [truthy, String.toList, List.isEmpty_cons, Bool.not_false, ne_eq, true_iff]
    intro h
    exact absurd (congrArg String.data h) (by simp)

theorem truthy_empty : truthy "" = false := rfl

theorem nextStep_of_invalid (d : Doc) (h : (validateCurrentStep d).2 = .returned false) :
    nextStep d = ((validateCurrentStep d).1, .returned ()) := by
  unfold nextStep
  generalize validateCurrentStep d = r at h
  obtain ⟨d1, o⟩ := r
  simp only at h
  subst h
  rfl

/-! ## Claims on validation -/

/-- C1: when a control marked `required` inside the panel of the current step has a value
that is empty after trimming, `validateCurrentStep` returns `false` and `nextStep` leaves
`currentStep` and the `display` of every step panel as they were. -/
theorem nextStep_blocked_by_empty_required (d : Doc) (step : Panel) (field : Field)
    (hstep : findPanel (stepKey d.currentStep) d.panels = some step)
    (hmem : field ∈ step.fields) (hreq : field.required = true)
    (hempty : jsTrim field.value.toList = []) :
    (validateCurrentStep d).2 = .returned false ∧
      (nextStep d).1.currentStep = d.currentStep ∧
      (nextStep d).1.panels.map Panel.display = d.panels.map Panel.display := by
  have hmiss : step.fields.any missingRequired = true :=
    List.any_eq_true.mpr ⟨field, hmem, by
      simp only [missingRequired, trimmedEmpty, hreq, hempty]
      rfl⟩
  have hres : (validateCurrentStep d).2 = .returned false := by
    rw [validateCurrentStep_result d step hstep, hmiss]
    rfl
  rw [nextStep_of_invalid d hres]
  exact ⟨hres, validateCurrentStep_currentStep d, validateCurrentStep_display d⟩

theorem nextStep_blocked_by_empty_required_witness :
    (validateCurrentStep (page [textField .other true "ada", textField .email true " \t "]
        [] [])).2 = .returned false ∧
      (nextStep (page [textField .other true "ada", textField .email true " \t "]
        [] [])).1.currentStep = 1 ∧
      (nextStep (page [textField .other true "ada", textField .email true " \t "]
        [] [])).1.panels.map Panel.display = ["block", "none", "none"] :=
  nextStep_blocked_by_empty_required
    (page [textField .other true "ada", textField .email true " \t "] [] [])
    ⟨"1", "block", [textField .other true "ada", textField .email true " \t "]⟩
    (textField .email true " \t ") (by decide) (by decide) rfl (by decide)

/-- C2 as stated fails: the empty string contains no `@`, yet the email block is skipped
for it and a step whose only control is an optional, empty email field validates. -/
theorem email_check_empty_string_passes :
    '@' ∉ "".toList ∧ emailInvalid [textField .email false ""] = false ∧
      (validateCurrentStep (page [textField .email false ""] [] [])).2 = .returned true := by
  decide

/-- C2, amended: with `v` the value of the first email control of the current panel, a `v`
of the shape `x@y.z` (parts non-empty, free of white space and `@`) passes the email check;
a non-empty `v` without `@`, or with an `@` that no dot follows, fails it and makes
`validateCurrentStep` return `false`; the empty `v` skips the check. When the check passes
or is skipped the verdict is that of the required-field and password checks. -/
theorem email_check_spec (d : Doc) (step : Panel) (emailField : Field)
    (hstep : findPanel (stepKey d.currentStep) d.panels = some step)
    (hfield : firstOfKind .email step.fields = some emailField) :
    (EmailShape emailField.value.toList ∨ emailField.value = "" →
        emailInvalid step.fields = false ∧
        (validateCurrentStep d).2 = .returned
          (!step.fields.any missingRequired && !passwordInvalid step.fields)) ∧
      (emailField.value ≠ "" →
        ('@' ∉ emailField.value.toList ∨
          ∃ a b, emailField.value.toList = a ++ '@' :: b ∧ '.' ∉ b) →
        emailInvalid step.fields = true ∧ (validateCurrentStep d).2 = .returned false) := by
  have hinv : emailInvalid step.fields =
      (truthy emailField.value && !isValidEmail emailField.value) := by
    unfold emailInvalid
    rw [hfield]
  refine ⟨?_, ?_⟩
  · intro h
    have h0 : emailInvalid step.fields = false := by
      rw [hinv]
      rcases h with h | h
      · rw [(isValidEmail_iff _).mpr h]
        simp
      · rw [h]
        rfl
    refine ⟨h0, ?_⟩
    rw [validateCurrentStep_result d step hstep, h0]
    simp
  · intro hne hbad
    have hno : isValidEmail emailField.value = false := by
      cases hv : isValidEmail emailField.value with
      | false => rfl
      | true =>
        have hs := ((isValidEmail_iff _).mp hv).dot_after_at
        rcases hbad with hbad | ⟨a, b, hab, hdot⟩
        · exact absurd hs.1 hbad
        · exact absurd (hs.2 a b hab) hdot
    have h1 : emailInvalid step.fields = true := by
      rw [hinv, hno, (truthy_iff _).mpr hne]
      rfl
    refine ⟨h1, ?_⟩
    rw [validateCurrentStep_result d step hstep, h1]
    simp

theorem email_check_spec_witness :
    isValidEmail "ada@site.org" = true ∧
      emailInvalid [textField .email true "ada@site.org"] = false ∧
      (validateCurrentStep (page [textField .email true "ada@site.org"] [] [])).2 =
        .returned true :=
  ⟨by decide,
   (email_check_spec (page [textField .email true "ada@site.org"] [] [])
      ⟨"1", "block", [textField .email true "ada@site.org"]⟩
      (textField .email true "ada@site.org") (by decide) (by decide)).1
      (Or.inl ((isValidEmail_iff _).mp (by decide)))⟩

/-- C3: with a password control on the current panel, a value that is non-empty and
shorter than 6 (in `.length` units) makes `validateCurrentStep` return `false`; an empty
value skips the length check and the verdict is that of the required-field and email
checks alone. -/
theorem password_check_spec (d : Doc) (step : Panel) (passwordField : Field)
    (hstep : findPanel (stepKey d.currentStep) d.panels = some step)
    (hfield : firstOfKind .password step.fields = some passwordField) :
    (passwordField.value ≠ "" → jsLength passwordField.value < 6 →
        (validateCurrentStep d).2 = .returned false) ∧
      (passwordField.value = "" →
        passwordInvalid step.fields = false ∧
        (validateCurrentStep d).2 = .returned
          (!step.fields.any missingRequired && !emailInvalid step.fields)) := by
  have hinv : passwordInvalid step.fields =
      (truthy passwordField.value && decide (jsLength passwordField.value < 6)) := by
    unfold passwordInvalid
    rw [hfield]
  refine ⟨?_, ?_⟩
  · intro hne hlt
    have h1 : passwordInvalid step.fields = true := by
      rw [hinv, (truthy_iff _).mpr hne, decide_eq_true hlt]
      rfl
    rw [validateCurrentStep_result d step hstep, h1]
    simp
  · intro he
    have h0 : passwordInvalid step.fields = false := by
      rw [hinv, he]
      rfl
    refine ⟨h0, ?_⟩
    rw [validateCurrentStep_result d step hstep, h0]
    simp

theorem password_check_spec_witness :
    "abc12" ≠ "" ∧ jsLength "abc12" < 6 ∧
      (validateCurrentStep (page [textField .password true "abc12"] [] [])).2 =
        .returned false :=
  ⟨by decide, by decide,
   (password_check_spec (page [textField .password true "abc12"] [] [])
      ⟨"1", "block", [textField .password true "abc12"]⟩
      (textField .password true "abc12") (by decide) (by decide)).1 (by decide) (by decide)⟩

/-! ## Navigation -/

theorem setPanelDisplay_eq_some {key value : String} {d d1 : Doc}
    (h : setPanelDisplay key value d = some d1) :
    d1 = emit (.panelDisplay key value)
      { d with panels := updatePanel key (fun p => { p with display := value }) d.panels } := by
  unfold setPanelDisplay at h
  split at h
  · exact absurd h (by simp)
  · exact (Option.some.inj h).symm

theorem setPanelDisplay_currentStep {key value : String} {d d1 : Doc}
    (h : setPanelDisplay key value d = some d1) : d1.currentStep = d.currentStep := by
  rw [setPanelDisplay_eq_some h]
  rfl

theorem setPanelDisplay_isSome (key value : String) (d : Doc) :
    (setPanelDisplay key value d).isSome = (findPanel key d.panels).isSome := by
  unfold setPanelDisplay
  split <;> simp [*]

theorem startWebcam_currentStep (id : String) (d : Doc) :
    (startWebcam id d).currentStep = d.currentStep := by
  unfold startWebcam
  simp only
  split <;> rfl

theorem stopWebcam_currentStep (d : Doc) : (stopWebcam d).currentStep = d.currentStep := by
  unfold stopWebcam
  simp only
  split <;> rfl

theorem stopWebcam_panels (d : Doc) : (stopWebcam d).panels = d.panels := by
  unfold stopWebcam
  simp only
  split <;> rfl

/-- The step reached by `nextStep`: unchanged, or one more when below `totalSteps`. -/
theorem nextStep_currentStep (d : Doc) :
    (nextStep d).1.currentStep = d.currentStep ∨
      (d.currentStep < totalSteps ∧ (nextStep d).1.currentStep = d.currentStep + 1) := by
  unfold nextStep
  have hcs := validateCurrentStep_currentStep d
  generalize validateCurrentStep d = r at hcs
  obtain ⟨d1, o⟩ := r
  simp only at hcs
  cases o with
  | threw => exact Or.inl hcs
  | returned b =>
    cases b with
    | false => exact Or.inl hcs
    | true =>
      simp only
      split
      · rename_i h1
        split
        · exact Or.inl hcs
        · rename_i d2 h2
          have e2 := setPanelDisplay_currentStep h2
          split
          · exact Or.inr ⟨hcs ▸ h1, by simp [e2, hcs]⟩
          · rename_i d3 h3
            have e3 := setPanelDisplay_currentStep h3
            simp only at e3
            refine Or.inr ⟨hcs ▸ h1, ?_⟩
            split <;>
              simp [startWebcam_currentStep, updateProgressSteps, e3, e2, hcs]
      · exact Or.inl hcs

/-- The step reached by `prevStep`: unchanged, or one less when above 1. -/
theorem prevStep_currentStep (d : Doc) :
    (prevStep d).1.currentStep = d.currentStep ∨
      (1 < d.currentStep ∧ (prevStep d).1.currentStep = d.currentStep - 1) := by
  unfold prevStep
  split
  · rename_i h1
    simp only
    have e0 : (if d.currentStep = 3 then stopWebcam d else d).currentStep = d.currentStep := by
      split
      · exact stopWebcam_currentStep d
      · rfl
    generalize (if d.currentStep = 3 then stopWebcam d else d) = d0 at e0
    split
    · exact Or.inl e0
    · rename_i d2 h2
      have e2 := setPanelDisplay_currentStep h2
      refine Or.inr ⟨h1, ?_⟩
      split
      · simp [e2, e0]
      · rename_i d3 h3
        have e3 := setPanelDisplay_currentStep h3
        simp only at e3
        simp [updateProgressSteps, e3, e2, e0]
  · exact Or.inl rfl

theorem updatePanel_fields (key : String) (g : Panel → Panel)
    (hg : ∀ p, (g p).fields = p.fields) (ps : List Panel) :
    (updatePanel key g ps).map Panel.fields = ps.map Panel.fields := by
  induction ps with
  | nil => rfl
  | cons p ps ih =>
    simp only [updatePanel]
    split
    · simp [hg]
    · simp [ih]

theorem setPanelDisplay_frame {key value : String} {d d1 : Doc}
    (h : setPanelDisplay key value d = some d1) :
    d1.formError = d.formError ∧ d1.panels.map Panel.fields = d.panels.map Panel.fields ∧
      d1.videoStream = d.videoStream := by
  rw [setPanelDisplay_eq_some h]
  exact ⟨rfl,
    updatePanel_fields key (fun p => { p with display := value }) (fun _ => rfl) d.panels, rfl⟩

theorem stopWebcam_formError (d : Doc) : (stopWebcam d).formError = d.formError := by
  unfold stopWebcam
  simp only
  split <;> rfl

theorem stopWebcam_videoStream (d : Doc) : (stopWebcam d).videoStream = none := by
  unfold stopWebcam
  simp only
  split
  · rfl
  · rename_i h
    exact h

/-- The function `prevStep` never touches the error banner nor the controls. -/
theorem prevStep_frame (d : Doc) :
    (prevStep d).1.formError = d.formError ∧
      (prevStep d).1.panels.map Panel.fields = d.panels.map Panel.fields := by
  unfold prevStep
  split
  · simp only
    have e0 : (if d.currentStep = 3 then stopWebcam d else d).formError = d.formError ∧
        (if d.currentStep = 3 then stopWebcam d else d).panels = d.panels := by
      split
      · exact ⟨stopWebcam_formError d, stopWebcam_panels d⟩
      · exact ⟨rfl, rfl⟩
    generalize (if d.currentStep = 3 then stopWebcam d else d) = d0 at e0
    split
    · exact ⟨e0.1, by rw [e0.2]⟩
    · rename_i d2 h2
      have e2 := setPanelDisplay_frame h2
      split
      · exact ⟨e2.1.trans e0.1, by rw [← e0.2]; exact e2.2.1⟩
      · rename_i d3 h3
        have e3 := setPanelDisplay_frame h3
        simp only at e3
        exact ⟨e3.1.trans (e2.1.trans e0.1), by
          rw [← e0.2]
          exact e3.2.1.trans e2.2.1⟩
  · exact ⟨rfl, rfl⟩

theorem showFormError_frame (m : String) (d : Doc) :
    (showFormError m d).currentStep = d.currentStep ∧
      (showFormError m d).panels = d.panels ∧
      (showFormError m d).videoStream = d.videoStream := by
  unfold showFormError
  split <;> exact ⟨rfl, rfl, rfl⟩

theorem submitRegistration_currentStep (faceData : Option String) (reply : FetchOutcome)
    (d : Doc) : (submitRegistration faceData reply d).1.currentStep = d.currentStep := by
  unfold submitRegistration
  split
  · rfl
  · simp only
    split
    · split
      · rfl
      · exact (showFormError_frame _ _).1
    · exact (showFormError_frame _ _).1

/-- The range `1..totalSteps` is kept by every action. -/
theorem step_range (d : Doc) (a : Action)
    (h : 1 ≤ d.currentStep ∧ d.currentStep ≤ totalSteps) :
    1 ≤ (step d a).currentStep ∧ (step d a).currentStep ≤ totalSteps := by
  cases a with
  | nextStep =>
    rcases nextStep_currentStep d with e | ⟨hlt, e⟩
    · simpa only [step, e] using h
    · simp only [step, e]
      omega
  | prevStep =>
    rcases prevStep_currentStep d with e | ⟨hlt, e⟩
    · simpa only [step, e] using h
    · simp only [step, e]
      omega
  | skipFace reply =>
    simpa only [step, skipFace, submitRegistration_currentStep] using h
  | edit panels => exact h

theorem run_range (actions : List Action) (d : Doc)
    (h : 1 ≤ d.currentStep ∧ d.currentStep ≤ totalSteps) :
    1 ≤ (run d actions).currentStep ∧ (run d actions).currentStep ≤ totalSteps := by
  induction actions generalizing d with
  | nil => exact h
  | cons a actions ih => exact ih (step d a) (step_range d a h)

/-! ## Claims on the step controller -/

/-- C4: from `currentStep = 1`, after any finite sequence of `nextStep`, `prevStep` and
`skipFace` calls, with the controls edited at will in between, `currentStep` lies in
`1..totalSteps` with `totalSteps = 3`; and `nextStep` at step 3 never increments it. -/
theorem currentStep_in_range (d : Doc) (actions : List Action) (h : d.currentStep = 1) :
    totalSteps = 3 ∧
      1 ≤ (run d actions).currentStep ∧ (run d actions).currentStep ≤ totalSteps ∧
      ∀ d3 : Doc, d3.currentStep = totalSteps → (nextStep d3).1.currentStep = totalSteps := by
  have hr := run_range actions d (by rw [h]; decide)
  refine ⟨rfl, hr.1, hr.2, ?_⟩
  intro d3 h3
  rcases nextStep_currentStep d3 with e | ⟨hlt, -⟩
  · rw [e, h3]
  · omega

theorem currentStep_in_range_witness :
    (run (page [] [] []) [.nextStep, .nextStep, .nextStep, .prevStep, .skipFace .rejected,
        .edit [], .nextStep]).currentStep ≤ totalSteps ∧
      (nextStep (run (page [] [] []) [.nextStep, .nextStep])).1.currentStep = totalSteps :=
  ⟨(currentStep_in_range (page [] [] []) [.nextStep, .nextStep, .nextStep, .prevStep,
      .skipFace .rejected, .edit [], .nextStep] rfl).2.2.1,
   (currentStep_in_range (page [] [] []) [] rfl).2.2.2
      (run (page [] [] []) [.nextStep, .nextStep]) (by decide)⟩

/-- C6: `prevStep` runs no validation. At `currentStep = 1` it returns the page as it
was; above 1, with the panel of the current step present, it lowers `currentStep` by one,
whatever the controls hold, and writes neither the error banner nor any control. -/
theorem prevStep_without_validation (d : Doc) :
    (d.currentStep = 1 → prevStep d = (d, .returned ())) ∧
      (1 < d.currentStep → (findPanel (stepKey d.currentStep) d.panels).isSome = true →
        (prevStep d).1.currentStep = d.currentStep - 1) ∧
      (prevStep d).1.formError = d.formError ∧
      (prevStep d).1.panels.map Panel.fields = d.panels.map Panel.fields := by
  refine ⟨?_, ?_, (prevStep_frame d).1, (prevStep_frame d).2⟩
  · intro h1
    unfold prevStep
    rw [if_neg (by omega)]
  · intro h1 hp
    unfold prevStep
    rw [if_pos h1]
    simp only
    have e0 : (if d.currentStep = 3 then stopWebcam d else d).currentStep = d.currentStep ∧
        (if d.currentStep = 3 then stopWebcam d else d).panels = d.panels := by
      split
      · exact ⟨stopWebcam_currentStep d, stopWebcam_panels d⟩
      · exact ⟨rfl, rfl⟩
    generalize (if d.currentStep = 3 then stopWebcam d else d) = d0 at e0
    have hs : (setPanelDisplay (stepKey d0.currentStep) "none" d0).isSome = true := by
      rw [setPanelDisplay_isSome, e0.1, e0.2]
      exact hp
    split
    · rename_i h2
      rw [h2] at hs
      exact absurd hs (by simp)
    · rename_i d2 h2
      have e2 := setPanelDisplay_currentStep h2
      split
      · simp [e2, e0.1]
      · rename_i d3 h3
        have e3 := setPanelDisplay_currentStep h3
        simp only at e3
        simp [updateProgressSteps, e3, e2, e0.1]

theorem prevStep_without_validation_witness :
    (validateCurrentStep (run (page [] [textField .email true "no at sign",
        textField .password true "abc"] []) [.nextStep])).2 = .returned false ∧
      (prevStep (run (page [] [textField .email true "no at sign",
        textField .password true "abc"] []) [.nextStep])).1.currentStep = 1 :=
  ⟨by decide,
   (prevStep_without_validation (run (page [] [textField .email true "no at sign",
      textField .password true "abc"] []) [.nextStep])).2.1 (by decide) (by decide)⟩

theorem mem_classRemove (cl tokens : List String) (t : String) :
    t ∈ classRemove cl tokens ↔ t ∈ cl ∧ t ∉ tokens := by
  simp [classRemove]

theorem mem_classAdd (cl : List String) (token t : String) :
    t ∈ classAdd cl token ↔ t ∈ cl ∨ t = token := by
  unfold classAdd
  split
  · rename_i h
    constructor
    · exact Or.inl
    · rintro (h1 | rfl)
      · exact h1
      · simpa using h
  · simp

/-- C5: after `updateProgressSteps` with current step `c`, an indicator numbered `n` has
class `completed` iff `n < c`, class `active` iff `n = c`, neither iff `n > c`, whatever
it carried before; no indicator has both, and the indicators keep their numbers. -/
theorem updateProgressSteps_classes (d : Doc) (ind : Indicator)
    (hmem : ind ∈ (updateProgressSteps d).indicators) :
    ¬("completed" ∈ ind.classList ∧ "active" ∈ ind.classList) ∧
      (∀ n : Int, ind.stepNum = some n →
        ("completed" ∈ ind.classList ↔ n < (d.currentStep : Int)) ∧
        ("active" ∈ ind.classList ↔ n = (d.currentStep : Int)) ∧
        ("completed" ∉ ind.classList ∧ "active" ∉ ind.classList ↔
          (d.currentStep : Int) < n)) ∧
      (updateProgressSteps d).indicators.map Indicator.stepNum =
        d.indicators.map Indicator.stepNum ∧
      (updateProgressSteps d).currentStep = d.currentStep := by
  have hnum : ∀ i : Indicator, (updateIndicator d.currentStep i).stepNum = i.stepNum := by
    intro i
    unfold updateIndicator
    simp only
    split
    · rfl
    · split
      · rfl
      · split <;> rfl
  obtain ⟨ind0, -, rfl⟩ := List.mem_map.mp hmem
  refine ⟨?_, ?_, ?_, rfl⟩
  · unfold updateIndicator
    simp only
    split
    · simp [mem_classRemove]
    · split
      · simp [mem_classAdd, mem_classRemove]
      · split <;> simp [mem_classAdd, mem_classRemove]
  · intro n hn
    rw [hnum] at hn
    unfold updateIndicator
    simp only [hn]
    split
    · rename_i h
      simp only [mem_classAdd, mem_classRemove]
      simp
      omega
    · split
      · rename_i h1 h2
        simp only [mem_classAdd, mem_classRemove]
        simp
        omega
      · rename_i h1 h2
        simp only [mem_classRemove]
        simp
        omega
  · simp only [updateProgressSteps, List.map_map]
    exact List.map_congr_left (fun i _ => hnum i)

theorem updateProgressSteps_classes_witness :
    ¬("completed" ∈ ["step", "completed"] ∧ "active" ∈ ["step", "completed"]) ∧
      ("completed" ∈ ["step", "completed"] ↔ (1 : Int) < 2) :=
  have h := updateProgressSteps_classes
    { page [] [] [] with
      currentStep := 2,
      indicators := [⟨some 1, ["active", "step", "completed"]⟩, ⟨some 2, ["step"]⟩] }
    ⟨some 1, ["step", "completed"]⟩ (by decide)
  ⟨h.1, ((h.2.1 1 rfl).1)⟩

/-! ## Traces -/

theorem countP_emit (q : Effect → Bool) (e : Effect) (d : Doc) :
    (emit e d).trace.countP q = d.trace.countP q + if q e = true then 1 else 0 := by
  simp [emit, List.countP_append, List.countP_cons]

theorem countP_showFormError (q : Effect → Bool)
    (hq : q (.setTimeout .hideFormError 5000) = false) (m : String) (d : Doc) :
    (showFormError m d).trace.countP q = d.trace.countP q := by
  unfold showFormError
  split
  · simp only [countP_emit, hq]
    simp
  · rfl

theorem countP_validateCurrentStep (q : Effect → Bool)
    (hq : q (.setTimeout .hideFormError 5000) = false) (d : Doc) :
    (validateCurrentStep d).1.trace.countP q = d.trace.countP q := by
  unfold validateCurrentStep
  split
  · rfl
  · simp only
    split
    · rw [countP_showFormError q hq]
    · rfl

theorem countP_setPanelDisplay (q : Effect → Bool) {key value : String} {d d1 : Doc}
    (hq : q (.panelDisplay key value) = false) (h : setPanelDisplay key value d = some d1) :
    d1.trace.countP q = d.trace.countP q := by
  rw [setPanelDisplay_eq_some h, countP_emit, hq]
  simp

theorem countP_startWebcam (q : Effect → Bool) (hq : q .getUserMedia = false) (id : String)
    (d : Doc) :
    (startWebcam id d).trace.countP q =
      d.trace.countP q + if q (.startWebcam id) = true then 1 else 0 := by
  unfold startWebcam
  simp only
  split
  · rw [countP_emit]
  · rw [countP_emit, countP_emit, hq]
    simp

theorem findPanel_updatePanel_isSome (key key1 : String) (g : Panel → Panel)
    (hg : ∀ p, (g p).dataStep = p.dataStep) (ps : List Panel) :
    (findPanel key (updatePanel key1 g ps)).isSome = (findPanel key ps).isSome := by
  unfold findPanel
  induction ps with
  | nil => rfl
  | cons p ps ih =>
    simp only [updatePanel]
    split
    · simp only [List.find?_cons, hg]
      cases p.dataStep == key <;> rfl
    · simp only [List.find?_cons]
      cases p.dataStep == key
      · exact ih
      · rfl

theorem validateCurrentStep_findPanel (key : String) (d : Doc) :
    (findPanel key (validateCurrentStep d).1.panels).isSome =
      (findPanel key d.panels).isSome := by
  unfold validateCurrentStep
  split
  · rfl
  · simp only
    split <;>
      simp only [showFormError_panels] <;>
      apply findPanel_updatePanel_isSome <;>
      intro p <;>
      rfl

theorem setPanelDisplay_findPanel (key : String) {key1 value : String} {d d1 : Doc}
    (h : setPanelDisplay key1 value d = some d1) :
    (findPanel key d1.panels).isSome = (findPanel key d.panels).isSome := by
  rw [setPanelDisplay_eq_some h]
  exact findPanel_updatePanel_isSome key key1 (fun p => { p with display := value })
    (fun _ => rfl) d.panels

/-- What `nextStep` does to the step and to a quiet counter: nothing to the counter unless
it reaches step 3 and shows its panel, where the one call `startWebcam('webcam')` is
counted. -/
theorem nextStep_counts (q : Effect → Bool) (hq : Quiet q) (d : Doc) :
    ((nextStep d).1.trace.countP q = d.trace.countP q ∧
        ((nextStep d).1.currentStep = d.currentStep ∨
          (nextStep d).1.currentStep = d.currentStep + 1 ∧
            (d.currentStep + 1 ≠ 3 ∨
              (findPanel (stepKey (d.currentStep + 1)) d.panels).isSome = false))) ∨
      ((nextStep d).1.trace.countP q =
          d.trace.countP q + (if q (.startWebcam "webcam") = true then 1 else 0) ∧
        d.currentStep + 1 = 3 ∧ (nextStep d).1.currentStep = 3) := by
  unfold nextStep
  have hcs := validateCurrentStep_currentStep d
  have htr := countP_validateCurrentStep q hq.1 d
  have hfp := validateCurrentStep_findPanel (stepKey (d.currentStep + 1)) d
  generalize validateCurrentStep d = r at hcs htr hfp
  obtain ⟨d1, o⟩ := r
  simp only at hcs htr hfp
  cases o with
  | threw => exact Or.inl ⟨htr, Or.inl hcs⟩
  | returned b =>
    cases b with
    | false => exact Or.inl ⟨htr, Or.inl hcs⟩
    | true =>
      simp only
      split
      · split
        · exact Or.inl ⟨htr, Or.inl hcs⟩
        · rename_i d2 h2
          have e2 := setPanelDisplay_currentStep h2
          have t2 := countP_setPanelDisplay q (hq.2.1 _ _) h2
          have f2 := setPanelDisplay_findPanel (stepKey (d.currentStep + 1)) h2
          split
          · rename_i h3
            have hs := setPanelDisplay_isSome (stepKey (d2.currentStep + 1)) "block"
              { d2 with currentStep := d2.currentStep + 1 }
            rw [h3] at hs
            simp only [e2, hcs] at hs
            refine Or.inl ⟨by simp [t2, htr], Or.inr ⟨by simp [e2, hcs], Or.inr ?_⟩⟩
            rw [← hfp, ← f2]
            exact hs.symm
          · rename_i d3 h3
            have e3 := setPanelDisplay_currentStep h3
            have t3 := countP_setPanelDisplay q (hq.2.1 _ _) h3
            simp only at e3 t3
            split
            · rename_i h4
              simp only [updateProgressSteps, e3, e2, hcs] at h4
              refine Or.inr ⟨?_, h4, ?_⟩
              · rw [countP_startWebcam q hq.2.2]
                simp [updateProgressSteps, t3, t2, htr]
              · simp [startWebcam_currentStep, updateProgressSteps, e3, e2, hcs, h4]
            · rename_i h4
              simp only [updateProgressSteps, e3, e2, hcs] at h4
              exact Or.inl ⟨by simp [updateProgressSteps, t3, t2, htr],
                Or.inr ⟨by simp [updateProgressSteps, e3, e2, hcs], Or.inl h4⟩⟩
      · exact Or.inl ⟨htr, Or.inl hcs⟩

theorem quiet_isStartWebcam : Quiet isStartWebcam :=
  ⟨rfl, fun _ _ => rfl, rfl⟩

theorem quiet_webcamStart : Quiet (fun e => e == Effect.startWebcam "webcam") :=
  ⟨by decide, fun _ _ => by simp, by decide⟩

theorem stopWebcam_trace (d : Doc) :
    ∃ n, (stopWebcam d).trace = d.trace ++ .stopWebcam :: List.replicate n .trackStop := by
  unfold stopWebcam
  simp only
  split
  · rename_i stream _
    exact ⟨stream.tracks, by simp [emit]⟩
  · exact ⟨0, by simp [emit]⟩

theorem setPanelDisplay_trace {key value : String} {d d1 : Doc}
    (h : setPanelDisplay key value d = some d1) :
    d1.trace = d.trace ++ [.panelDisplay key value] ∧ d1.videoStream = d.videoStream := by
  rw [setPanelDisplay_eq_some h]
  exact ⟨rfl, rfl⟩

/-- From step 3, `prevStep` first calls `stopWebcam`, which stops the tracks and clears the
stream reference, and only then writes the display of panel 3. -/
theorem prevStep_from_face_step (d : Doc) (h3 : d.currentStep = 3) :
    ∃ n post, (prevStep d).1.trace =
        d.trace ++ .stopWebcam :: (List.replicate n .trackStop ++ post) ∧
      ((findPanel "3" d.panels).isSome = true →
        ∃ rest, post = .panelDisplay "3" "none" :: rest) ∧
      (prevStep d).1.videoStream = none := by
  unfold prevStep
  rw [if_pos (by omega), if_pos h3]
  simp only
  obtain ⟨n, ht⟩ := stopWebcam_trace d
  have hv := stopWebcam_videoStream d
  have hc := stopWebcam_currentStep d
  have hp := stopWebcam_panels d
  generalize stopWebcam d = d0 at ht hv hc hp
  have hk : stepKey d0.currentStep = "3" := by
    rw [hc, h3]
    rfl
  rw [hk]
  split
  · rename_i h2
    refine ⟨n, [], by simpa using ht, ?_, hv⟩
    intro hsome
    have hs := setPanelDisplay_isSome "3" "none" d0
    rw [h2, hp, hsome] at hs
    exact absurd hs (by simp)
  · rename_i d2 h2
    have t2 := setPanelDisplay_trace h2
    split
    · exact ⟨n, [.panelDisplay "3" "none"], by simp [t2.1, ht], fun _ => ⟨[], rfl⟩,
        t2.2.trans hv⟩
    · rename_i d3 h3
      have t3 := setPanelDisplay_trace h3
      simp only at t3
      exact ⟨n, [.panelDisplay "3" "none", .panelDisplay (stepKey (d2.currentStep - 1)) "block"],
        by simp [updateProgressSteps, t3.1, t2.1, ht], fun _ => ⟨_, rfl⟩,
        by simp [updateProgressSteps, t3.2, t2.2, hv]⟩

/-- C7: a `nextStep` call that moves `currentStep` from 2 to 3 (the panel of step 3 being
present) adds exactly one `startWebcam` call to the trace, with argument `'webcam'`; any
other `nextStep` call adds none; a `prevStep` call at step 3 emits `stopWebcam` first, then
the track stops, and only after them the write of `'none'` to the display of panel 3, and
ends with an empty stream reference. -/
theorem webcam_effects (d : Doc) :
    (d.currentStep = 2 → (nextStep d).1.currentStep = 3 →
        (findPanel "3" d.panels).isSome = true →
        (nextStep d).1.trace.countP isStartWebcam = d.trace.countP isStartWebcam + 1 ∧
        (nextStep d).1.trace.count (.startWebcam "webcam") =
          d.trace.count (.startWebcam "webcam") + 1) ∧
      (¬(d.currentStep = 2 ∧ (nextStep d).1.currentStep = 3) →
        (nextStep d).1.trace.countP isStartWebcam = d.trace.countP isStartWebcam) ∧
      (d.currentStep = 3 →
        ∃ n post, (prevStep d).1.trace =
            d.trace ++ .stopWebcam :: (List.replicate n .trackStop ++ post) ∧
          ((findPanel "3" d.panels).isSome = true →
            ∃ rest, post = .panelDisplay "3" "none" :: rest) ∧
          (prevStep d).1.videoStream = none) := by
  refine ⟨?_, ?_, prevStep_from_face_step d⟩
  · intro h2 h3 hp
    have key : ∀ q : Effect → Bool, Quiet q → q (.startWebcam "webcam") = true →
        (nextStep d).1.trace.countP q = d.trace.countP q + 1 := by
      intro q hq hqs
      rcases nextStep_counts q hq d with ⟨-, hc⟩ | ⟨ht, -, -⟩
      · rcases hc with hc | ⟨-, hc | hc⟩
        · omega
        · omega
        · rw [h2] at hc
          have : stepKey (2 + 1) = "3" := rfl
          rw [this, hp] at hc
          exact absurd hc (by simp)
      · rw [ht, hqs]
        rfl
    exact ⟨key _ quiet_isStartWebcam rfl, key _ quiet_webcamStart (by decide)⟩
  · intro hno
    rcases nextStep_counts _ quiet_isStartWebcam d with ⟨ht, -⟩ | ⟨-, h1, h2⟩
    · exact ht
    · exact absurd ⟨by omega, h2⟩ hno

theorem webcam_effects_witness :
    (nextStep (run (page [] [] []) [.nextStep])).1.trace.count (.startWebcam "webcam") = 1 ∧
      (∃ n post, (prevStep (run (page [] [] []) [.nextStep, .nextStep])).1.trace =
          (run (page [] [] []) [.nextStep, .nextStep]).trace ++
            .stopWebcam :: (List.replicate n .trackStop ++ post) ∧
        ((findPanel "3" (run (page [] [] []) [.nextStep, .nextStep]).panels).isSome = true →
          ∃ rest, post = .panelDisplay "3" "none" :: rest) ∧
        (prevStep (run (page [] [] []) [.nextStep, .nextStep])).1.videoStream = none) :=
  ⟨((webcam_effects (run (page [] [] []) [.nextStep])).1 (by decide) (by decide)
      (by decide)).2,
   (webcam_effects (run (page [] [] []) [.nextStep, .nextStep])).2.2 (by decide)⟩

/-! ## Capture and retake -/

theorem hidden_removeClass (e : Element) : (e.removeClass "hidden").hidden = false := by
  simp [Element.hidden, Element.removeClass, classRemove]

theorem hidden_addClass (e : Element) : (e.addClass "hidden").hidden = true := by
  simp [Element.hidden, Element.addClass, mem_classAdd]

theorem display_removeClass (e : Element) (t : String) :
    (e.removeClass t).display = e.display := rfl

theorem display_addClass (e : Element) (t : String) : (e.addClass t).display = e.display :=
  rfl

/-- C8: from a pre-capture state where the preview is hidden, the webcam container shown,
the capture button shown and the retake button hidden, and where the video, the canvas and
the image exist, `captureFace` returns the frame and flips the four flags, and `retakeFace`
right after it restores the four flags and sets both `capturedFaceData` and
`window.capturedFaceData` to `null`. -/
theorem capture_then_retake (frame : String) (d : Doc)
    (hvideo : d.webcam.isSome = true) (hcanvas : d.faceCanvas.isSome = true)
    (himg : d.capturedFace.isSome = true)
    (hvis : visibility d = some (true, true, true, true)) :
    (captureFace frame d).2 = .returned (some frame) ∧
      visibility (captureFace frame d).1 = some (false, false, false, false) ∧
      (captureFace frame d).1.capturedFaceData = some frame ∧
      (captureFace frame d).1.windowCapturedFaceData = some frame ∧
      (retakeFace (captureFace frame d).1).2 = .returned () ∧
      visibility (retakeFace (captureFace frame d).1).1 = visibility d ∧
      (retakeFace (captureFace frame d).1).1.capturedFaceData = none ∧
      (retakeFace (captureFace frame d).1).1.windowCapturedFaceData = none := by
  rcases d with ⟨cs, ps, inds, fe, rf, vs, cfd, wcfd, wc, fc, fp, cf, wct, cb, rb, fs, fls, tr⟩
  cases wc with
  | none => simp at hvideo
  | some video =>
  cases fc with
  | none => simp at hcanvas
  | some canvas =>
  cases cf with
  | none => simp at himg
  | some img =>
  cases fp with
  | none => simp [visibility] at hvis
  | some preview =>
  cases wct with
  | none => simp [visibility] at hvis
  | some container =>
  cases cb with
  | none => simp [visibility] at hvis
  | some capture =>
  cases rb with
  | none => simp [visibility] at hvis
  | some retake =>
  simp only [visibility, Option.some.injEq, Prod.mk.injEq] at hvis
  obtain ⟨h1, h2, h3, h4⟩ := hvis
  cases fs <;> cases vs <;>
    simp [captureFace, showPreview, retakeFace, showLive, stopWebcam, startWebcam, emit,
      visibility, hidden_removeClass, hidden_addClass, h1, h2, h3, h4]

theorem capture_then_retake_witness :
    visibility (page [] [] []) = some (true, true, true, true) ∧
      visibility (captureFace "data:image/jpeg;base64,/9j/4AAQ" (page [] [] [])).1 =
        some (false, false, false, false) ∧
      visibility (retakeFace (captureFace "data:image/jpeg;base64,/9j/4AAQ"
        (page [] [] [])).1).1 = visibility (page [] [] []) ∧
      (retakeFace (captureFace "data:image/jpeg;base64,/9j/4AAQ"
        (page [] [] [])).1).1.windowCapturedFaceData = none :=
  have h := capture_then_retake "data:image/jpeg;base64,/9j/4AAQ" (page [] [] [])
    (by decide) (by decide) (by decide) (by decide)
  ⟨by decide, h.2.1, h.2.2.2.2.2.1, h.2.2.2.2.2.2.2⟩

/-! ## Submission -/

theorem showFormError_formError (m : String) (d : Doc) :
    (showFormError m d).formError =
      d.formError.map (fun e => ({ e with textContent := m } : Element).removeClass "hidden")
    := by
  unfold showFormError
  split
  · rename_i e h
    simp [emit, h]
  · rename_i h
    simp [h]

theorem showFormError_text (m : String) (d : Doc) :
    (showFormError m d).formError.map Element.textContent = d.formError.map (fun _ => m) ∧
      (showFormError m d).formError.map Element.hidden = d.formError.map (fun _ => false) := by
  rw [showFormError_formError]
  cases d.formError with
  | none => exact ⟨rfl, rfl⟩
  | some e => exact ⟨rfl, by simp [hidden_removeClass]⟩

/-- The state in which `submitRegistration` ends when the server answers with a result
whose `success` is false. -/
theorem submitRegistration_failure (faceData : Option String) (result : SubmissionResult)
    (d : Doc) (hform : d.registerForm.isSome = true) (hfail : result.success = false) :
    ∃ body, submitRegistration faceData (.json result) d =
      (showFormError (failureMessage result) (emit (.fetch "/register" "POST" body) d),
        .returned ()) := by
  unfold submitRegistration
  cases hf : d.registerForm with
  | none => simp [hf] at hform
  | some formData =>
    simp only [hfail]
    exact ⟨_, rfl⟩

/-- The state in which `submitRegistration` ends when the request is rejected or the body
is not JSON. -/
theorem submitRegistration_caught (faceData : Option String) (reply : FetchOutcome)
    (d : Doc) (hform : d.registerForm.isSome = true)
    (hreply : reply = .rejected ∨ reply = .notJson) :
    ∃ body, submitRegistration faceData reply d =
      (showFormError "An error occurred. Please try again."
        (emit (.consoleError "Registration error:") (emit (.fetch "/register" "POST" body) d)),
        .returned ()) := by
  unfold submitRegistration
  cases hf : d.registerForm with
  | none => simp [hf] at hform
  | some formData =>
    rcases hreply with rfl | rfl <;> exact ⟨_, rfl⟩

/-- C9 as stated fails: a failure response that supplies the empty string as its message
gets the fallback text in the banner, not the supplied message. -/
theorem failure_response_empty_message :
    (submitRegistration none (.json ⟨false, none, some ""⟩)
        (page [] [] [])).1.formError.map Element.textContent =
      some "Registration failed. Please try again." ∧
      (submitRegistration none (.json ⟨false, none, some ""⟩)
        (page [] [] [])).1.formError.map Element.textContent ≠ some "" := by
  decide

/-- C9, amended: for a response with `success` false (the form being present),
`submitRegistration` shows in the error banner the response's message when one is
supplied and non-empty, and the fallback `Registration failed. Please try again.` when the
message is absent or empty; it unhides the banner, shows no toast, schedules no navigation
and leaves `currentStep` as it was. -/
theorem failure_response_spec (faceData : Option String) (result : SubmissionResult)
    (d : Doc) (hform : d.registerForm.isSome = true) (hfail : result.success = false) :
    (∀ m, result.message = some m → m ≠ "" →
        (submitRegistration faceData (.json result) d).1.formError.map Element.textContent =
          d.formError.map (fun _ => m)) ∧
      (result.message = none ∨ result.message = some "" →
        (submitRegistration faceData (.json result) d).1.formError.map Element.textContent =
          d.formError.map (fun _ => "Registration failed. Please try again.")) ∧
      (submitRegistration faceData (.json result) d).1.formError.map Element.hidden =
        d.formError.map (fun _ => false) ∧
      (submitRegistration faceData (.json result) d).1.trace.countP isToast =
        d.trace.countP isToast ∧
      (submitRegistration faceData (.json result) d).1.trace.countP isNavigation =
        d.trace.countP isNavigation ∧
      (submitRegistration faceData (.json result) d).1.currentStep = d.currentStep ∧
      (submitRegistration faceData (.json result) d).2 = .returned () := by
  obtain ⟨body, h⟩ := submitRegistration_failure faceData result d hform hfail
  rw [h]
  simp only
  refine ⟨?_, ?_, (showFormError_text _ _).2, ?_, ?_, (showFormError_frame _ _).1, trivial⟩
  · intro m hm hne
    rw [(showFormError_text _ _).1]
    simp only [failureMessage, hm, (truthy_iff m).mpr hne, if_true]
    rfl
  · intro hm
    rw [(showFormError_text _ _).1]
    rcases hm with hm | hm <;> simp only [failureMessage, hm] <;> rfl
  · rw [countP_showFormError _ rfl, countP_emit]
    rfl
  · rw [countP_showFormError _ rfl, countP_emit]
    rfl

theorem failure_response_spec_witness :
    (submitRegistration (some "data:image/jpeg;base64,/9j/4AAQ")
        (.json ⟨false, none, some "Email already registered"⟩)
        (page [] [] [])).1.formError.map Element.textContent =
      some "Email already registered" :=
  (failure_response_spec (some "data:image/jpeg;base64,/9j/4AAQ")
    ⟨false, none, some "Email already registered"⟩ (page [] [] []) (by decide) rfl).1
    "Email already registered" rfl (by decide)

/-- C10: for every captured image and every form content, when the request to `/register`
is rejected or its body is not JSON, `submitRegistration` completes normally, shows
`An error occurred. Please try again.` in the unhidden error banner, has issued one
request and no second one, shows no toast and schedules no navigation. -/
theorem transport_failure_spec (faceData : Option String) (formData : List (String × String))
    (reply : FetchOutcome) (d : Doc) (hform : d.registerForm = some formData)
    (hreply : reply = .rejected ∨ reply = .notJson) :
    (submitRegistration faceData reply d).2 = .returned () ∧
      (submitRegistration faceData reply d).1.formError.map Element.textContent =
        d.formError.map (fun _ => "An error occurred. Please try again.") ∧
      (submitRegistration faceData reply d).1.formError.map Element.hidden =
        d.formError.map (fun _ => false) ∧
      (submitRegistration faceData reply d).1.trace.countP isFetch =
        d.trace.countP isFetch + 1 ∧
      (submitRegistration faceData reply d).1.trace.countP isNavigation =
        d.trace.countP isNavigation ∧
      (submitRegistration faceData reply d).1.trace.countP isToast =
        d.trace.countP isToast ∧
      (submitRegistration faceData reply d).1.currentStep = d.currentStep := by
  obtain ⟨body, h⟩ := submitRegistration_caught faceData reply d (by simp [hform]) hreply
  rw [h]
  simp only
  refine ⟨trivial, (showFormError_text _ _).1, (showFormError_text _ _).2, ?_, ?_, ?_,
    (showFormError_frame _ _).1⟩
  · rw [countP_showFormError _ rfl, countP_emit, countP_emit]
    rfl
  · rw [countP_showFormError _ rfl, countP_emit, countP_emit]
    rfl
  · rw [countP_showFormError _ rfl, countP_emit, countP_emit]
    rfl

theorem transport_failure_spec_witness :
    (submitRegistration none .rejected
        { page [] [] [] with registerForm := some [("email", "ada@site.org")] }).2 =
      .returned () ∧
      (submitRegistration none .rejected
        { page [] [] [] with registerForm := some [("email", "ada@site.org")] }
        ).1.formError.map Element.textContent =
      some "An error occurred. Please try again." :=
  have h := transport_failure_spec none [("email", "ada@site.org")] .rejected
    { page [] [] [] with registerForm := some [("email", "ada@site.org")] } rfl (Or.inl rfl)
  ⟨h.1, h.2.1⟩

/-! ## One panel on display -/

theorem updatePanel_map {β : Type} (f : Panel → β) (key : String) (g : Panel → Panel)
    (hg : ∀ p, f (g p) = f p) (ps : List Panel) :
    (updatePanel key g ps).map f = ps.map f := by
  induction ps with
  | nil => rfl
  | cons p ps ih =>
    simp only [updatePanel]
    split
    · simp [hg]
    · simp [ih]

theorem countP_cells (key : String) (ps : List Panel) :
    ps.countP (fun p => p.dataStep == key) =
      (ps.map Panel.cell).countP (fun e => e.1 == key) := by
  rw [List.countP_map]
  rfl

theorem countP_setShown (key key1 : String) (b : Bool) (cells : List (String × Bool)) :
    (cells.map (setShown key1 b)).countP (fun e => e.1 == key) =
      cells.countP (fun e => e.1 == key) := by
  rw [List.countP_map]
  congr 1
  funext e
  simp only [Function.comp, setShown]
  split <;> rfl

/-- A display write on a key that names at most one panel rewrites the cells of that key
and no other. -/
theorem updatePanel_cells (key value : String) (ps : List Panel)
    (huniq : ps.countP (fun p => p.dataStep == key) ≤ 1) :
    (updatePanel key (fun p => { p with display := value }) ps).map Panel.cell =
      (ps.map Panel.cell).map (setShown key (value != "none")) := by
  induction ps with
  | nil => rfl
  | cons p ps ih =>
    simp only [updatePanel]
    by_cases h : (p.dataStep == key) = true
    · rw [if_pos h]
      have h0 : ps.countP (fun p => p.dataStep == key) = 0 := by
        rw [List.countP_cons, if_pos h] at huniq
        omega
      have hrest : (ps.map Panel.cell).map (setShown key (value != "none")) =
          ps.map Panel.cell := by
        rw [List.map_map]
        apply List.map_congr_left
        intro q hq
        have hq1 := List.countP_eq_zero.mp h0 q hq
        simp only [Function.comp, setShown, Panel.cell]
        rw [if_neg hq1]
      simp only [List.map_cons, hrest]
      simp [setShown, Panel.cell, Panel.shown, h]
    · rw [if_neg h]
      have h1 : ps.countP (fun p => p.dataStep == key) ≤ 1 := by
        rw [List.countP_cons, if_neg h] at huniq
        exact huniq
      simp only [List.map_cons, ih h1]
      simp [setShown, Panel.cell, h]

theorem findPanel_isSome_of_count (key : String) (ps : List Panel)
    (h : ps.countP (fun p => p.dataStep == key) = 1) : (findPanel key ps).isSome = true := by
  unfold findPanel
  rw [List.find?_isSome]
  have hpos : 0 < ps.countP (fun p => p.dataStep == key) := by omega
  obtain ⟨a, ha, hp⟩ := List.countP_pos_iff.mp hpos
  exact ⟨a, ha, hp⟩

theorem StepLayout.count {cs : Nat} {cells : List (String × Bool)} (h : StepLayout cs cells)
    (k : Nat) (h1 : 1 ≤ k) (h3 : k ≤ 3) :
    cells.countP (fun e => e.1 == stepKey k) = 1 := by
  apply h.2.2.1
  simp only [List.mem_cons, List.mem_singleton]
  omega

/-- Hiding the panel of the current step and showing that of another step lays the cells
out for that other step. -/
theorem StepLayout.move {cs cs1 : Nat} {cells : List (String × Bool)}
    (h : StepLayout cs cells) (h1 : 1 ≤ cs1) (h3 : cs1 ≤ totalSteps) :
    StepLayout cs1
      ((cells.map (setShown (stepKey cs) false)).map (setShown (stepKey cs1) true)) := by
  refine ⟨h1, h3, ?_, ?_⟩
  · intro k hk
    rw [countP_setShown, countP_setShown]
    exact h.2.2.1 k hk
  · intro e1 he1
    obtain ⟨e0, he0, rfl⟩ := List.mem_map.mp he1
    obtain ⟨e, he, rfl⟩ := List.mem_map.mp he0
    have hshow := h.2.2.2 e he
    by_cases ha : (e.1 == stepKey cs) = true
    · by_cases hb : (e.1 == stepKey cs1) = true
      · simp [setShown, ha, hb]
      · simp [setShown, ha, hb]
    · by_cases hb : (e.1 == stepKey cs1) = true
      · simp [setShown, ha, hb]
      · rw [Bool.not_eq_true] at ha hb
        simp only [setShown, ha, hb, Bool.false_eq_true, if_false]
        rw [hshow, ha]

theorem setPanelDisplay_cells {key value : String} {d d1 : Doc}
    (h : setPanelDisplay key value d = some d1)
    (huniq : (d.panels.map Panel.cell).countP (fun e => e.1 == key) ≤ 1) :
    d1.panels.map Panel.cell =
      (d.panels.map Panel.cell).map (setShown key (value != "none")) := by
  rw [setPanelDisplay_eq_some h]
  rw [← countP_cells] at huniq
  exact updatePanel_cells key value d.panels huniq

theorem setPanelDisplay_ne_none (key value : String) (d : Doc)
    (hone : (d.panels.map Panel.cell).countP (fun e => e.1 == key) = 1) :
    setPanelDisplay key value d ≠ none := by
  intro hn
  have hs := setPanelDisplay_isSome key value d
  rw [← countP_cells] at hone
  rw [hn, findPanel_isSome_of_count key d.panels hone] at hs
  exact absurd hs (by simp)

theorem validateCurrentStep_cells (d : Doc) :
    (validateCurrentStep d).1.panels.map Panel.cell = d.panels.map Panel.cell := by
  unfold validateCurrentStep
  split
  · rfl
  · simp only
    split <;>
      simp only [showFormError_panels] <;>
      apply updatePanel_map <;>
      intro p <;>
      rfl

theorem startWebcam_panels (id : String) (d : Doc) :
    (startWebcam id d).panels = d.panels := by
  unfold startWebcam
  simp only
  split <;> rfl

/-- The layout is kept by `nextStep`. -/
theorem nextStep_layout (d : Doc) (h : StepLayout d.currentStep (d.panels.map Panel.cell)) :
    StepLayout (nextStep d).1.currentStep ((nextStep d).1.panels.map Panel.cell) := by
  unfold nextStep
  have hcs := validateCurrentStep_currentStep d
  have hce := validateCurrentStep_cells d
  generalize validateCurrentStep d = r at hcs hce
  obtain ⟨d1, o⟩ := r
  simp only at hcs hce
  rw [← hcs, ← hce] at h
  cases o with
  | threw => exact h
  | returned b =>
    cases b with
    | false => exact h
    | true =>
      simp only
      split
      · rename_i hlt
        have hlt3 : d1.currentStep + 1 ≤ 3 := hlt
        split
        · exact h
        · rename_i d2 h2
          have e2 := setPanelDisplay_currentStep h2
          have c2 := setPanelDisplay_cells h2 (le_of_eq (h.count _ h.1 h.2.1))
          have hone : (d2.panels.map Panel.cell).countP
              (fun e => e.1 == stepKey (d2.currentStep + 1)) = 1 := by
            rw [c2, countP_setShown, e2]
            exact h.count _ (by omega) hlt3
          split
          · rename_i h3
            exact absurd h3 (setPanelDisplay_ne_none _ _ _ hone)
          · rename_i d3 h3
            have e3 := setPanelDisplay_currentStep h3
            have c3 := setPanelDisplay_cells h3 (le_of_eq hone)
            simp only at e3 c3
            have hfin : StepLayout d3.currentStep (d3.panels.map Panel.cell) := by
              rw [e3, c3, c2, e2]
              exact h.move (by omega) hlt3
            split
            · rw [startWebcam_panels, startWebcam_currentStep]
              exact hfin
            · exact hfin
      · exact h

/-- The layout is kept by `prevStep`. -/
theorem prevStep_layout (d : Doc) (h : StepLayout d.currentStep (d.panels.map Panel.cell)) :
    StepLayout (prevStep d).1.currentStep ((prevStep d).1.panels.map Panel.cell) := by
  unfold prevStep
  split
  · rename_i hgt
    simp only
    have e0 : (if d.currentStep = 3 then stopWebcam d else d).currentStep = d.currentStep ∧
        (if d.currentStep = 3 then stopWebcam d else d).panels = d.panels := by
      split
      · exact ⟨stopWebcam_currentStep d, stopWebcam_panels d⟩
      · exact ⟨rfl, rfl⟩
    generalize (if d.currentStep = 3 then stopWebcam d else d) = d0 at e0
    rw [← e0.1, ← e0.2] at h
    have hgt0 : 1 < d0.currentStep := by
      rw [e0.1]
      exact hgt
    have hle0 : d0.currentStep ≤ 3 := h.2.1
    split
    · exact h
    · rename_i d2 h2
      have e2 := setPanelDisplay_currentStep h2
      have c2 := setPanelDisplay_cells h2 (le_of_eq (h.count _ h.1 h.2.1))
      have hone : (d2.panels.map Panel.cell).countP
          (fun e => e.1 == stepKey (d2.currentStep - 1)) = 1 := by
        rw [c2, countP_setShown, e2]
        exact h.count _ (by omega) (by omega)
      split
      · rename_i h3
        exact absurd h3 (setPanelDisplay_ne_none _ _ _ hone)
      · rename_i d3 h3
        have e3 := setPanelDisplay_currentStep h3
        have c3 := setPanelDisplay_cells h3 (le_of_eq hone)
        simp only at e3 c3
        show StepLayout d3.currentStep (d3.panels.map Panel.cell)
        rw [e3, c3, c2, e2]
        exact h.move (by omega) (by unfold totalSteps; omega)
  · exact h

/-- The layout is kept by every navigation action. -/
theorem navStep_layout (d : Doc) (a : NavAction)
    (h : StepLayout d.currentStep (d.panels.map Panel.cell)) :
    StepLayout (navStep d a).currentStep ((navStep d a).panels.map Panel.cell) := by
  cases a with
  | nextStep => exact nextStep_layout d h
  | prevStep => exact prevStep_layout d h
  | fill key fields =>
    simp only [navStep]
    have hc := updatePanel_map Panel.cell key (fun p => { p with fields := fields })
      (fun _ => rfl) d.panels
    rw [hc]
    exact h

theorem navRun_layout (actions : List NavAction) (d : Doc)
    (h : StepLayout d.currentStep (d.panels.map Panel.cell)) :
    StepLayout (navRun d actions).currentStep ((navRun d actions).panels.map Panel.cell) := by
  induction actions generalizing d with
  | nil => exact h
  | cons a actions ih => exact ih (navStep d a) (navStep_layout d a h)

/-- In a layout for step `cs` the displayed panels are one panel, and its key is that of
`cs`. -/
theorem StepLayout.shown_keys {cs : Nat} {ps : List Panel}
    (h : StepLayout cs (ps.map Panel.cell)) :
    (ps.filter Panel.shown).map Panel.dataStep = [stepKey cs] := by
  have hfilter : ps.filter Panel.shown = ps.filter (fun p => p.dataStep == stepKey cs) := by
    apply List.filter_congr
    intro p hp
    exact h.2.2.2 p.cell (List.mem_map_of_mem _ hp)
  have hlen : (ps.filter (fun p => p.dataStep == stepKey cs)).length = 1 := by
    rw [← List.countP_eq_length_filter, countP_cells]
    exact h.count cs h.1 h.2.1
  obtain ⟨p, hp⟩ := List.length_eq_one.mp hlen
  have hmem : p ∈ ps.filter (fun p => p.dataStep == stepKey cs) := by
    rw [hp]
    exact List.mem_singleton.mpr rfl
  have hkey : p.dataStep = stepKey cs := by
    have := (List.mem_filter.mp hmem).2
    simpa using this
  rw [hfilter, hp]
  simp [hkey]

/-! ## Claim on the displayed panel -/

/-- C11: when `currentStep` is 1, each of the steps 1, 2, 3 has exactly one panel and a
panel is displayed iff it is that of step 1, then after any sequence of `nextStep` and
`prevStep` calls, with the user typing in between, the displayed panels are exactly one
panel, whose `data-step` is that of `currentStep`; each step still has exactly one
panel and no other panel is displayed. -/
theorem one_panel_displayed (d : Doc) (actions : List NavAction)
    (hstart : d.currentStep = 1)
    (hone : ∀ k ∈ [1, 2, 3], d.panels.countP (fun p => p.dataStep == stepKey k) = 1)
    (hshown : ∀ p ∈ d.panels, p.shown = (p.dataStep == "1")) :
    ((navRun d actions).panels.filter Panel.shown).map Panel.dataStep =
        [stepKey (navRun d actions).currentStep] ∧
      (∀ p ∈ (navRun d actions).panels,
        p.shown = (p.dataStep == stepKey (navRun d actions).currentStep)) ∧
      (∀ k ∈ [1, 2, 3],
        (navRun d actions).panels.countP (fun p => p.dataStep == stepKey k) = 1) := by
  have h0 : StepLayout d.currentStep (d.panels.map Panel.cell) := by
    refine ⟨by omega, by rw [hstart]; decide, ?_, ?_⟩
    · intro k hk
      rw [← countP_cells]
      exact hone k hk
    · intro e he
      obtain ⟨p, hp, rfl⟩ := List.mem_map.mp he
      rw [hstart]
      exact hshown p hp
  have h := navRun_layout actions d h0
  refine ⟨h.shown_keys, ?_, ?_⟩
  · intro p hp
    exact h.2.2.2 p.cell (List.mem_map_of_mem _ hp)
  · intro k hk
    rw [countP_cells]
    exact h.2.2.1 k hk

theorem one_panel_displayed_witness :
    ((navRun (page [textField .email true "ada@site.org"] [] [])
        [.nextStep, .fill "2" [textField .password true "secret1"], .nextStep, .nextStep,
          .prevStep]).panels.filter Panel.shown).map Panel.dataStep = ["2"] :=
  (one_panel_displayed (page [textField .email true "ada@site.org"] [] [])
    [.nextStep, .fill "2" [textField .password true "secret1"], .nextStep, .nextStep,
      .prevStep] rfl (by decide) (by decide)).1

end Portal
